import Mathlib

/-!
Verification development for the facilitator dashboard component
(`client/src/Features/Facilitator/FacilitatorDashboard_Enhanced.jsx`).

The component's pure logic is shallowly embedded here:

* a `JsValue` type models the JSON-like JavaScript values flowing through
  the response-extraction helper and the status-update handler;
* typed records (`CaseRec`, `Doctor`) model the case and doctor records
  that the statistics aggregator, recent-cases derivation and doctor lookup
  read (per the data model these fields are strings / absent);
* the status-update handler is modelled as a state transformer that also
  emits an ordered trace of its observable effects (state writes, remote
  calls, alerts), with the outcomes of the two remote calls supplied as
  explicit `Except` parameters.

JavaScript semantics that the embedding commits to are noted at each
definition.  Objects are modelled as association lists with unique keys
(as produced by JSON); strict equality (`===`) on objects/arrays is
reference equality, modelled as `false` for structurally distinct values
(identifier fields compared in the component are strings).
-/

/-- A JSON-like JavaScript value.  `undefined` models `undefined`. -/
inductive JsValue where
  | undefined : JsValue
  | null : JsValue
  | bool : Bool → JsValue
  | num : Int → JsValue
  | str : String → JsValue
  | arr : List JsValue → JsValue
  | obj : List (String × JsValue) → JsValue
  deriving Repr

/-- JavaScript truthiness of a value (`!x` is `!truthy x`).  The numeric
model is `Int`, so `NaN` (also falsy in JS) does not arise. -/
def truthy : JsValue → Bool
  | .undefined => false
  | .null => false
  | .bool b => b
  | .num n => n != 0
  | .str s => s != ""
  | .arr _ => true
  | .obj _ => true

/-- Property access `v[k]`: field lookup on objects, `undefined` on
everything else.  (The component only reads non-numeric keys such as
`_id`, `id`, `case`, `status`, on which strings and numbers also yield
`undefined` in JS.) -/
def getProp : JsValue → String → JsValue
  | .obj fs, k =>
    match fs.lookup k with
    | some v => v
    | none => .undefined
  | _, _ => .undefined

/-- JavaScript `a || b`. -/
def jsOr (a b : JsValue) : JsValue := if truthy a then a else b

/-- JavaScript `a ?? b` (nullish coalescing). -/
def jsCoalesce (a b : JsValue) : JsValue :=
  match a with
  | .undefined => b
  | .null => b
  | v => v

/-- JavaScript strict equality `===` on the values the component compares.
Objects and arrays compare by reference; structurally distinct values are
modelled as not identical. -/
def strictEq : JsValue → JsValue → Bool
  | .undefined, .undefined => true
  | .null, .null => true
  | .bool a, .bool b => a == b
  | .num a, .num b => a == b
  | .str a, .str b => a == b
  | _, _ => false

/-- Whether `typeof v === "object"` holds (`true` for objects, arrays and
`null`). -/
def typeofObject : JsValue → Bool
  | .obj _ => true
  | .arr _ => true
  | .null => true
  | _ => false

/-- Whether the value is a plain object. -/
def isObjVal : JsValue → Bool
  | .obj _ => true
  | _ => false

/-- `Object.values(v)`: field values of an object, elements of an array,
characters of a string (boxed), `[]` for other primitives.  (The component
applies it only to truthy values, so the `null`/`undefined` TypeError case
is unreachable.) -/
def jsValues : JsValue → List JsValue
  | .obj fs => fs.map (fun kv => kv.2)
  | .arr xs => xs
  | .str s => s.data.map (fun c => .str (String.singleton c))
  | _ => []

/-- The test `v._id || v.id` of the component, as a truthiness check. -/
def hasTruthyId (v : JsValue) : Bool :=
  truthy (jsOr (getProp v "_id") (getProp v "id"))

/-- Enumerable own properties that an object spread `...v` copies: an
object's fields, an array's indexed elements, a string's indexed
characters; other primitives spread to nothing. -/
def spreadFields : JsValue → List (String × JsValue)
  | .obj fs => fs
  | .arr xs => xs.enum.map (fun iv => (toString iv.1, iv.2))
  | .str s => s.data.enum.map (fun ic => (toString ic.1, JsValue.str (String.singleton ic.2)))
  | _ => []

/-- Write a field into an association list the way an object literal does:
override the first occurrence in place, else append at the end. -/
def setField : List (String × JsValue) → String → JsValue → List (String × JsValue)
  | [], k, v => [(k, v)]
  | (k', v') :: fs, k, v =>
    if k' == k then (k, v) :: fs else (k', v') :: setField fs k v

/-- Object spread merge, modelling a literal of the form with the fields
of `a` spread first and the fields of `b` spread after (later fields
override earlier ones in place). -/
def mergeObj (a b : JsValue) : JsValue :=
  .obj ((spreadFields b).foldl (fun fs kv => setField fs kv.1 kv.2) (spreadFields a))

mutual

/-- JavaScript `String(v)` on JSON-like values: `undefined`/`null` render
as their names, arrays join their stringified elements with commas
(with `null`/`undefined` elements rendering empty), plain objects render
as the generic object tag. -/
def jsToString : JsValue → String
  | .undefined => "undefined"
  | .null => "null"
  | .bool b => cond b "true" "false"
  | .num n => toString n
  | .str s => s
  | .obj _ => "[object Object]"
  | .arr xs => String.intercalate "," (jsToStringElems xs)

/-- Stringification of array elements for `jsToString` (in an array join,
`null` and `undefined` elements render as the empty string). -/
def jsToStringElems : List JsValue → List String
  | [] => []
  | .undefined :: xs => "" :: jsToStringElems xs
  | .null :: xs => "" :: jsToStringElems xs
  | x :: xs => jsToString x :: jsToStringElems xs

end

/-- The wrapper keys probed by the response-extraction helper, in source
order. -/
def probeKeys : List String := ["case", "data", "result", "payload"]

/-- Condition under which the wrapper-key loop of the extraction helper
returns the value under key `k`. -/
def probeOk (data : JsValue) (k : String) : Bool :=
  truthy (getProp data k) && hasTruthyId (getProp data k)

/-- Condition under which the final value scan of the extraction helper
accepts a value. -/
def valOk (v : JsValue) : Bool :=
  truthy v && typeofObject v && hasTruthyId v

/-- The helper `extractUpdatedCase` of the dashboard: guard falsy input;
accept the body itself when it carries a truthy identifier field;
otherwise probe the wrapper keys in order; otherwise scan the body's own
values for the first object-typed value with a truthy identifier field;
otherwise yield `null`. -/
def extractUpdatedCase (data : JsValue) : JsValue :=
  if ¬ truthy data then .null
  else if hasTruthyId data then data
  else
    match probeKeys.find? (fun k => probeOk data k) with
    | some k => getProp data k
    | none =>
      match (jsValues data).find? (fun v => valOk v) with
      | some v => v
      | none => .null

/-- Local component state touched by the status-update handler. -/
structure DashState where
  cases : List JsValue
  selectedCase : JsValue
  updatingCaseId : JsValue
  deriving Repr

/-- Observable effects of the status-update handler, in the order they
occur: state-setter calls (with the value written), remote calls at the
moment they are issued, and console/alert notifications. -/
inductive Ev where
  | setUpdatingId (v : JsValue)
  | setCasesTo (cs : List JsValue)
  | setSelectedTo (v : JsValue)
  | remotePut (id : JsValue) (status : String)
  | remoteGet
  | warned
  | errorLogged
  | alerted
  deriving Repr

/-- The optimistic rewrite of the local case collection performed before
the remote call: map over the collection, replacing the status field of
every record whose identifier is strictly equal to the given one. -/
def optimisticUpdate (caseId : JsValue) (newStatus : String) (cs : List JsValue) : List JsValue :=
  cs.map (fun c =>
    if strictEq (getProp c "_id") caseId then
      mergeObj c (.obj [("status", .str newStatus)])
    else c)

/-- The reconciliation rewrite performed on a successful update: merge the
canonical record into every local record whose stringified identifier
matches the canonical identifier. -/
def reconcileCases (idv updated : JsValue) (cs : List JsValue) : List JsValue :=
  cs.map (fun c =>
    if jsToString (getProp c "_id") == jsToString idv then mergeObj c updated else c)

/-- Coercion of a reload response body to a case collection: an array is
taken as-is, any non-array is treated as the empty collection. -/
def casesFromResponse : JsValue → List JsValue
  | .arr xs => xs
  | _ => []

/-- The handler `handleUpdateStatus` of the dashboard, as a state
transformer that also emits the ordered trace of its effects.  The
outcomes of the two remote calls (the PUT of the status update, and the
GET reload attempted after a failed PUT) are supplied as `Except`
parameters: `Except.ok` carries the response body, `Except.error` models
a rejected call. -/
def handleUpdateStatus (putResp refetchResp : Except Unit JsValue)
    (caseId : JsValue) (newStatus : String) (st : DashState) : DashState × List Ev :=
  if ¬ truthy caseId then (st, [])
  else
    let cs1 := optimisticUpdate caseId newStatus st.cases
    let st1 : DashState := { st with updatingCaseId := caseId, cases := cs1 }
    let evs1 : List Ev :=
      [.setUpdatingId caseId, .setCasesTo cs1, .remotePut caseId newStatus]
    match putResp with
    | .ok data =>
      let updated := jsCoalesce (extractUpdatedCase data) data
      if truthy updated && hasTruthyId updated then
        let idv := jsOr (getProp updated "_id") (getProp updated "id")
        let cs2 := reconcileCases idv updated cs1
        if truthy st.selectedCase &&
            (jsToString (getProp st.selectedCase "_id") == jsToString idv) then
          let sel2 := mergeObj st.selectedCase updated
          ({ st1 with cases := cs2, selectedCase := sel2, updatingCaseId := .null },
           evs1 ++ [.setCasesTo cs2, .setSelectedTo sel2, .setUpdatingId .null])
        else
          ({ st1 with cases := cs2, updatingCaseId := .null },
           evs1 ++ [.setCasesTo cs2, .setUpdatingId .null])
      else
        ({ st1 with updatingCaseId := .null },
         evs1 ++ [.warned, .setUpdatingId .null])
    | .error _ =>
      match refetchResp with
      | .ok d =>
        ({ st1 with cases := casesFromResponse d, updatingCaseId := .null },
         evs1 ++ [.errorLogged, .remoteGet, .setCasesTo (casesFromResponse d),
                  .alerted, .setUpdatingId .null])
      | .error _ =>
        ({ st1 with updatingCaseId := .null },
         evs1 ++ [.errorLogged, .remoteGet, .errorLogged, .alerted, .setUpdatingId .null])

/-- A case record as read by the statistics aggregator and the
recent-cases derivation.  Per the data model, the identifier and the
status are strings that may be absent, and the creation timestamp is the
numeric instant the date string denotes (the comparator subtracts the two
parsed dates). -/
structure CaseRec where
  _id : Option String
  status : Option String
  createdAt : Nat
  deriving DecidableEq, Repr

/-- Whitespace as removed by the aggregator's regular expression (the
ASCII part of the class; the statuses involved contain only ASCII). -/
def isJsSpace (c : Char) : Bool :=
  c = ' ' || c = '\t' || c = '\n' || c = '\r' || c = '\x0b' || c = '\x0c'

/-- Remove every whitespace character from a string (the effect of
replacing every whitespace run with the empty string). -/
def stripWs (s : String) : String :=
  String.mk (s.data.filter (fun c => ¬ isJsSpace c))

/-- The defaulting of a missing status: a record with an absent or empty
(falsy) status contributes the literal key source text. -/
def statusOrUnknown : Option String → String
  | none => "unknown"
  | some s => if s = "" then "unknown" else s

/-- Lower-case every character of a string (the statuses involved are
ASCII, on which this matches the JavaScript method). -/
def jsToLower (s : String) : String :=
  String.mk (s.data.map Char.toLower)

/-- The normalized status key of a record: default a falsy status, then
lower-case and remove all whitespace. -/
def normalizedKey (status : Option String) : String :=
  stripWs (jsToLower (statusOrUnknown status))

/-- The counter table built by the statistics aggregator.  Its fields are
the own properties of the counter object literal; the dynamic lookup that
decides whether a key is "defined" also resolves the prototype chain and
is modelled in `bumpKey`. -/
structure StatCounts where
  total : Nat
  pending : Nat
  assigned : Nat
  inprogress : Nat
  followup : Nat
  closed : Nat
  rejected : Nat
  unknown : Nat
  deriving DecidableEq, Repr

/-- The all-zero initial counter table. -/
def StatCounts.init : StatCounts := ⟨0, 0, 0, 0, 0, 0, 0, 0⟩

/-- The property names the counter object inherits from the standard
object prototype that a normalized status key can actually name.  The
normalized key is always a lower-cased string, and of the prototype's
properties (constructor, hasOwnProperty, isPrototypeOf,
propertyIsEnumerable, toLocaleString, toString, valueOf, the four
getter/setter definers, and the proto accessor) only "constructor" and
the proto accessor are spelled entirely in lower case, so every other
inherited name is unreachable. -/
def inheritedLowerKeys : List String := ["constructor", "__proto__"]

/-- Dynamic counter increment: the defined-property test resolves the
counter object's own fields and then the prototype chain.  A key naming
one of the eight own counters increments that counter.  A key naming a
reachable inherited property ("constructor" or the proto accessor) also
passes the test, but its increment changes no counter: incrementing
reads the inherited value, coerces it to NaN, and either writes a
shadowing non-counter own property ("constructor") or is swallowed by
the prototype setter, so the counter table is unchanged (and stays
unchanged on repeats, the shadowing NaN still being defined).  Every
other key increments the unknown counter. -/
def bumpKey (cnt : StatCounts) (key : String) : StatCounts :=
  if key = "total" then { cnt with total := cnt.total + 1 }
  else if key = "pending" then { cnt with pending := cnt.pending + 1 }
  else if key = "assigned" then { cnt with assigned := cnt.assigned + 1 }
  else if key = "inprogress" then { cnt with inprogress := cnt.inprogress + 1 }
  else if key = "followup" then { cnt with followup := cnt.followup + 1 }
  else if key = "closed" then { cnt with closed := cnt.closed + 1 }
  else if key = "rejected" then { cnt with rejected := cnt.rejected + 1 }
  else if key = "unknown" then { cnt with unknown := cnt.unknown + 1 }
  else if key ∈ inheritedLowerKeys then cnt
  else { cnt with unknown := cnt.unknown + 1 }

/-- One iteration of the aggregation loop: count the record in the total,
then bump the counter named by its normalized status key. -/
def statsStep (cnt : StatCounts) (c : CaseRec) : StatCounts :=
  bumpKey { cnt with total := cnt.total + 1 } (normalizedKey c.status)

/-- The statistics snapshot `stats` of the dashboard, computed by folding
the aggregation loop over the case collection. -/
def caseStats (cs : List CaseRec) : StatCounts :=
  cs.foldl statsStep StatCounts.init

/-- The six status buckets of the statistics snapshot. -/
def bucketKeys : List String :=
  ["pending", "assigned", "inprogress", "followup", "closed", "rejected"]

/-- Number of records of the collection whose normalized status key
equals `k`. -/
def countKey (k : String) (cs : List CaseRec) : Nat :=
  (cs.filter (fun c => normalizedKey c.status = k)).length

/-- Number of records whose normalized status key is none of the six
buckets, the key "total", or a reachable inherited property name (these
are the ones counted as unknown, the key "unknown" itself included). -/
def countUnknownish (cs : List CaseRec) : Nat :=
  (cs.filter (fun c =>
    normalizedKey c.status ∉ bucketKeys ∧ normalizedKey c.status ≠ "total"
      ∧ normalizedKey c.status ∉ inheritedLowerKeys)).length

/-- Number of records whose normalized status key names a reachable
inherited property of the counter object ("constructor" or the proto
accessor); their increments change no counter. -/
def countInherited (cs : List CaseRec) : Nat :=
  (cs.filter (fun c => normalizedKey c.status ∈ inheritedLowerKeys)).length

/-- Insertion into a list already arranged in descending creation order.
An element passes records created strictly later and is placed before the
first record created no later than it, which is exactly where the stable
descending comparator sort of the source places an element that occurs
earlier in the input than everything already placed. -/
def insertByCreatedDesc (x : CaseRec) : List CaseRec → List CaseRec
  | [] => [x]
  | y :: ys =>
    if y.createdAt ≤ x.createdAt then x :: y :: ys
    else y :: insertByCreatedDesc x ys

/-- The stable descending-by-creation sort of the case collection,
modelling the comparator sort on the copied collection (the runtime's
sort is specified stable, and a stable sort under a total preorder is
unique, so insertion sort is an exact model). -/
def sortByCreatedDesc (cs : List CaseRec) : List CaseRec :=
  cs.foldr insertByCreatedDesc []

/-- The `recentCases` derivation of the dashboard: sort a copy of the
collection descending by creation timestamp and keep the first six. -/
def recentCases (cs : List CaseRec) : List CaseRec :=
  (sortByCreatedDesc cs).take 6

/-- A doctor record as read by the doctor lookup.  Identifier fields may
be absent (strict equality with an absent field fails); the name and
optional specialization are what the lookup's callers display. -/
structure Doctor where
  _id : Option String
  id : Option String
  name : String
  specialization : Option String
  deriving DecidableEq, Repr

/-- The placeholder record returned when a string identifier finds no
doctor. -/
def placeholderDoctor : Doctor :=
  { _id := none, id := none, name := "Doctor", specialization := some "" }

/-- A doctor reference as stored on a case: absent, a string identifier,
or an already-embedded doctor object. -/
inductive DoctorRef where
  | absent : DoctorRef
  | strId (s : String) : DoctorRef
  | embedded (d : Doctor) : DoctorRef
  deriving DecidableEq, Repr

/-- JavaScript truthiness of a doctor reference (an empty string is
falsy; an object is always truthy). -/
def refTruthy : DoctorRef → Bool
  | .absent => false
  | .strId s => s != ""
  | .embedded _ => true

/-- The `getAssignedDoctor` helper of the dashboard: falsy references
resolve to no result; a string identifier is looked up by either
identifier field, defaulting to the placeholder; an embedded object is
returned as-is. -/
def getAssignedDoctor (ref : DoctorRef) (doctors : List Doctor) : Option Doctor :=
  if ¬ refTruthy ref then none
  else
    match ref with
    | .strId s =>
      some ((doctors.find? (fun d => d._id == some s || d.id == some s)).getD
        placeholderDoctor)
    | .embedded d => some d
    | .absent => none

/-- The fixed status enumeration of the dashboard. -/
def STATUSES : List String := ["Pending", "Assigned", "In Progress", "Follow Up", "Closed"]

/-- The status-tab derivation of the URL synchronization effect: a falsy
parameter yields the tab "All"; otherwise the first enumeration member
matching case-insensitively, defaulting to "All". -/
def deriveTab (statusParam : Option String) : String :=
  match statusParam with
  | none => "All"
  | some p =>
    if p = "" then "All"
    else
      match STATUSES.find? (fun s => jsToLower s == jsToLower p) with
      | some s => s
      | none => "All"

set_option maxHeartbeats 1000000 in
/-- Characterization of one aggregation-loop iteration: the total grows
by one (plus one more when the key is "total"), each bucket grows exactly
when the key names it, the inherited keys ("constructor" and the proto
accessor) grow nothing, and the unknown counter grows exactly when the
key names neither a bucket, nor the total counter, nor an inherited
property. -/
theorem statsStep_char (cnt : StatCounts) (c : CaseRec) :
    (statsStep cnt c).total =
      cnt.total + 1 + (if normalizedKey c.status = "total" then 1 else 0)
  ∧ (statsStep cnt c).pending =
      cnt.pending + (if normalizedKey c.status = "pending" then 1 else 0)
  ∧ (statsStep cnt c).assigned =
      cnt.assigned + (if normalizedKey c.status = "assigned" then 1 else 0)
  ∧ (statsStep cnt c).inprogress =
      cnt.inprogress + (if normalizedKey c.status = "inprogress" then 1 else 0)
  ∧ (statsStep cnt c).followup =
      cnt.followup + (if normalizedKey c.status = "followup" then 1 else 0)
  ∧ (statsStep cnt c).closed =
      cnt.closed + (if normalizedKey c.status = "closed" then 1 else 0)
  ∧ (statsStep cnt c).rejected =
      cnt.rejected + (if normalizedKey c.status = "rejected" then 1 else 0)
  ∧ (statsStep cnt c).unknown =
      cnt.unknown + (if normalizedKey c.status ∉ bucketKeys ∧ normalizedKey c.status ≠ "total"
        ∧ normalizedKey c.status ∉ inheritedLowerKeys then 1 else 0) := by
  unfold statsStep bumpKey
  split_ifs <;> simp_all [bucketKeys, inheritedLowerKeys]

/-- Unfolding of the per-key record count over a cons cell. -/
theorem countKey_cons (k : String) (c : CaseRec) (cs : List CaseRec) :
    countKey k (c :: cs) =
      (if normalizedKey c.status = k then 1 else 0) + countKey k cs := by
  by_cases h : normalizedKey c.status = k <;>
    simp [countKey, List.filter_cons, h] <;> omega

/-- Unfolding of the unknown-bucket record count over a cons cell. -/
theorem countUnknownish_cons (c : CaseRec) (cs : List CaseRec) :
    countUnknownish (c :: cs) =
      (if normalizedKey c.status ∉ bucketKeys ∧ normalizedKey c.status ≠ "total"
        ∧ normalizedKey c.status ∉ inheritedLowerKeys then 1 else 0)
      + countUnknownish cs := by
  by_cases h : normalizedKey c.status ∉ bucketKeys ∧ normalizedKey c.status ≠ "total"
      ∧ normalizedKey c.status ∉ inheritedLowerKeys <;>
    simp [countUnknownish, List.filter_cons, h] <;> omega

/-- Unfolding of the inherited-key record count over a cons cell. -/
theorem countInherited_cons (c : CaseRec) (cs : List CaseRec) :
    countInherited (c :: cs) =
      (if normalizedKey c.status ∈ inheritedLowerKeys then 1 else 0)
      + countInherited cs := by
  by_cases h : normalizedKey c.status ∈ inheritedLowerKeys <;>
    simp [countInherited, List.filter_cons, h] <;> omega

/-- Characterization of the aggregation loop from an arbitrary starting
counter table. -/
theorem caseStats_loop_char (cs : List CaseRec) : ∀ cnt : StatCounts,
    (cs.foldl statsStep cnt).pending = cnt.pending + countKey "pending" cs
  ∧ (cs.foldl statsStep cnt).assigned = cnt.assigned + countKey "assigned" cs
  ∧ (cs.foldl statsStep cnt).inprogress = cnt.inprogress + countKey "inprogress" cs
  ∧ (cs.foldl statsStep cnt).followup = cnt.followup + countKey "followup" cs
  ∧ (cs.foldl statsStep cnt).closed = cnt.closed + countKey "closed" cs
  ∧ (cs.foldl statsStep cnt).rejected = cnt.rejected + countKey "rejected" cs
  ∧ (cs.foldl statsStep cnt).unknown = cnt.unknown + countUnknownish cs
  ∧ (cs.foldl statsStep cnt).total = cnt.total + cs.length + countKey "total" cs := by
  induction cs with
  | nil => intro cnt; simp [countKey, countUnknownish]
  | cons c cs ih =>
    intro cnt
    obtain ⟨hp, ha, hi, hf, hc, hr, hu, ht⟩ := ih (statsStep cnt c)
    obtain ⟨st, sp, sa, si, sf, sc, sr, su⟩ := statsStep_char cnt c
    rw [List.foldl_cons]
    refine ⟨?_, ?_, ?_, ?_, ?_, ?_, ?_, ?_⟩ <;>
      simp only [hp, ha, hi, hf, hc, hr, hu, ht, st, sp, sa, si, sf, sc, sr, su,
        countKey_cons, countUnknownish_cons, List.length_cons] <;>
      split_ifs <;> omega

/-- Partition of a single normalized key among the counters it can
increment: each key increments exactly one of the six buckets, the
unknown counter, or (for the key "total") the total counter. -/
theorem key_partition (k : String) :
    (if k = "pending" then 1 else 0) + (if k = "assigned" then 1 else 0)
  + (if k = "inprogress" then 1 else 0) + (if k = "followup" then 1 else 0)
  + (if k = "closed" then 1 else 0) + (if k = "rejected" then 1 else 0)
  + (if k ∉ bucketKeys ∧ k ≠ "total" ∧ k ∉ inheritedLowerKeys then 1 else 0)
  + (if k = "total" then 1 else 0)
  + (if k ∈ inheritedLowerKeys then 1 else 0) = (1 : Nat) := by
  by_cases h1 : k = "pending"
  · subst h1; decide
  by_cases h2 : k = "assigned"
  · subst h2; decide
  by_cases h3 : k = "inprogress"
  · subst h3; decide
  by_cases h4 : k = "followup"
  · subst h4; decide
  by_cases h5 : k = "closed"
  · subst h5; decide
  by_cases h6 : k = "rejected"
  · subst h6; decide
  by_cases h7 : k = "total"
  · subst h7; decide
  by_cases h8 : k = "constructor"
  · subst h8; decide
  by_cases h9 : k = "__proto__"
  · subst h9; decide
  simp [bucketKeys, inheritedLowerKeys, h1, h2, h3, h4, h5, h6, h7, h8, h9]

/-- Sum of the per-class record counts over a collection. -/
theorem count_partition (cs : List CaseRec) :
    countKey "pending" cs + countKey "assigned" cs + countKey "inprogress" cs
  + countKey "followup" cs + countKey "closed" cs + countKey "rejected" cs
  + countUnknownish cs + countKey "total" cs + countInherited cs = cs.length := by
  induction cs with
  | nil => simp [countKey, countUnknownish, countInherited]
  | cons c cs ih =>
    have hk := key_partition (normalizedKey c.status)
    simp only [countKey_cons, countUnknownish_cons, countInherited_cons, List.length_cons]
    omega

/-- C1 (corrected).  For every case collection, each of the six bucket
counters of the statistics snapshot equals the number of records whose
normalized status key names it; the unknown counter counts exactly the
records whose key is none of the buckets, the key "total", or a
reachable inherited property name ("constructor" or the proto accessor)
— the key "unknown" included, so records with no status land there; a
record whose key is "total" increments the total counter instead (so the
total equals the record count plus the number of such records); and a
record whose key is an inherited property name increments no counter at
all (it is counted only in the per-record total). -/
theorem stats_bucket_characterization (cs : List CaseRec) :
    (caseStats cs).pending = countKey "pending" cs
  ∧ (caseStats cs).assigned = countKey "assigned" cs
  ∧ (caseStats cs).inprogress = countKey "inprogress" cs
  ∧ (caseStats cs).followup = countKey "followup" cs
  ∧ (caseStats cs).closed = countKey "closed" cs
  ∧ (caseStats cs).rejected = countKey "rejected" cs
  ∧ (caseStats cs).unknown = countUnknownish cs
  ∧ (caseStats cs).total = cs.length + countKey "total" cs := by
  have h := caseStats_loop_char cs StatCounts.init
  simp only [caseStats, StatCounts.init] at h ⊢
  omega

/-- C1 (counterexample).  A record whose status is "Total" normalizes to
the key "total", which is not one of the six buckets, so the claim says
the unknown counter is incremented; the code instead increments the total
counter (because "total" is a defined property of the counter object),
leaving the unknown counter at zero and double-counting the total.
Likewise a record whose status is "Constructor" normalizes to the
inherited property name "constructor", passes the defined-property test
through the prototype chain, and increments no counter at all: the
unknown counter stays zero and the total counts the record only once. -/
theorem stats_total_key_counterexample :
    (caseStats [{ _id := some "c1", status := some "Total", createdAt := 0 }]).unknown = 0
  ∧ (caseStats [{ _id := some "c1", status := some "Total", createdAt := 0 }]).pending = 0
  ∧ (caseStats [{ _id := some "c1", status := some "Total", createdAt := 0 }]).assigned = 0
  ∧ (caseStats [{ _id := some "c1", status := some "Total", createdAt := 0 }]).inprogress = 0
  ∧ (caseStats [{ _id := some "c1", status := some "Total", createdAt := 0 }]).followup = 0
  ∧ (caseStats [{ _id := some "c1", status := some "Total", createdAt := 0 }]).closed = 0
  ∧ (caseStats [{ _id := some "c1", status := some "Total", createdAt := 0 }]).rejected = 0
  ∧ (caseStats [{ _id := some "c1", status := some "Total", createdAt := 0 }]).total = 2
  ∧ (caseStats [{ _id := some "c3", status := some "Constructor", createdAt := 0 }]).unknown = 0
  ∧ (caseStats [{ _id := some "c3", status := some "Constructor", createdAt := 0 }]).pending = 0
  ∧ (caseStats [{ _id := some "c3", status := some "Constructor", createdAt := 0 }]).assigned = 0
  ∧ (caseStats [{ _id := some "c3", status := some "Constructor", createdAt := 0 }]).inprogress = 0
  ∧ (caseStats [{ _id := some "c3", status := some "Constructor", createdAt := 0 }]).followup = 0
  ∧ (caseStats [{ _id := some "c3", status := some "Constructor", createdAt := 0 }]).closed = 0
  ∧ (caseStats [{ _id := some "c3", status := some "Constructor", createdAt := 0 }]).rejected = 0
  ∧ (caseStats [{ _id := some "c3", status := some "Constructor", createdAt := 0 }]).total = 1 := by
  decide

/-- C2 (corrected).  For every case collection, the sum of the seven
bucket counters of the statistics snapshot, plus twice the number of
records whose normalized status key is "total", plus the number of
records whose key is a reachable inherited property name ("constructor"
or the proto accessor), equals the snapshot's total count; in particular
the sum equals the total exactly when no record's status normalizes to
"total" or to an inherited property name. -/
theorem stats_sum_relation (cs : List CaseRec) :
    (caseStats cs).pending + (caseStats cs).assigned + (caseStats cs).inprogress
  + (caseStats cs).followup + (caseStats cs).closed + (caseStats cs).rejected
  + (caseStats cs).unknown + 2 * countKey "total" cs + countInherited cs =
    (caseStats cs).total := by
  have h := caseStats_loop_char cs StatCounts.init
  have hpart := count_partition cs
  simp only [caseStats, StatCounts.init] at h ⊢
  omega

/-- C2 (counterexample).  For the one-record collection whose status is
" TOTAL " (normalized key "total"), the seven bucket counters sum to
zero while the total count is two; and for the one-record collection
whose status is the proto accessor name, the increment is swallowed by
the prototype setter, so the counters sum to zero while the total is
one.  In both collections the sum of the bucket counters differs from
the total. -/
theorem stats_sum_counterexample :
    ((caseStats [{ _id := some "c2", status := some " TOTAL ", createdAt := 5 }]).pending
  + (caseStats [{ _id := some "c2", status := some " TOTAL ", createdAt := 5 }]).assigned
  + (caseStats [{ _id := some "c2", status := some " TOTAL ", createdAt := 5 }]).inprogress
  + (caseStats [{ _id := some "c2", status := some " TOTAL ", createdAt := 5 }]).followup
  + (caseStats [{ _id := some "c2", status := some " TOTAL ", createdAt := 5 }]).closed
  + (caseStats [{ _id := some "c2", status := some " TOTAL ", createdAt := 5 }]).rejected
  + (caseStats [{ _id := some "c2", status := some " TOTAL ", createdAt := 5 }]).unknown
  ≠ (caseStats [{ _id := some "c2", status := some " TOTAL ", createdAt := 5 }]).total)
  ∧ ((caseStats [{ _id := some "c4", status := some "__proto__", createdAt := 5 }]).pending
  + (caseStats [{ _id := some "c4", status := some "__proto__", createdAt := 5 }]).assigned
  + (caseStats [{ _id := some "c4", status := some "__proto__", createdAt := 5 }]).inprogress
  + (caseStats [{ _id := some "c4", status := some "__proto__", createdAt := 5 }]).followup
  + (caseStats [{ _id := some "c4", status := some "__proto__", createdAt := 5 }]).closed
  + (caseStats [{ _id := some "c4", status := some "__proto__", createdAt := 5 }]).rejected
  + (caseStats [{ _id := some "c4", status := some "__proto__", createdAt := 5 }]).unknown
  ≠ (caseStats [{ _id := some "c4", status := some "__proto__", createdAt := 5 }]).total) := by
  decide

/-- A find over a list whose earlier elements all fail the predicate
returns the first element satisfying it. -/
theorem find?_first {α : Type} (p : α → Bool) :
    ∀ (pre : List α) (d : α) (post : List α),
    (∀ x ∈ pre, p x = false) → p d = true →
    (pre ++ d :: post).find? p = some d := by
  intro pre
  induction pre with
  | nil => intro d post _ hd; simp [List.find?_cons, hd]
  | cons a pre ih =>
    intro d post hpre hd
    have ha : p a = false := hpre a (by simp)
    simp only [List.cons_append, List.find?_cons, ha]
    exact ih d post (fun x hx => hpre x (by simp [hx])) hd

/-- C7.  Doctor lookup returns the reference itself when it is an
embedded object; the first matching doctor when the reference is a
(truthy) string identifier present in the collection; the placeholder
record (name "Doctor", empty specialization, no identifier) when the
string identifier matches no doctor; and no result when the reference is
absent.  The lookup is a pure function: it leaves the reference and the
doctor collection unchanged by construction. -/
theorem getAssignedDoctor_spec (doctors : List Doctor) :
    (∀ d : Doctor, getAssignedDoctor (.embedded d) doctors = some d)
  ∧ (∀ s : String, s ≠ "" →
      (∀ pre d post, doctors = pre ++ d :: post →
        (d._id = some s ∨ d.id = some s) →
        (∀ d' ∈ pre, d'._id ≠ some s ∧ d'.id ≠ some s) →
        getAssignedDoctor (.strId s) doctors = some d)
      ∧ ((∀ d ∈ doctors, d._id ≠ some s ∧ d.id ≠ some s) →
        getAssignedDoctor (.strId s) doctors = some placeholderDoctor))
  ∧ getAssignedDoctor .absent doctors = none := by
  refine ⟨?_, ?_, ?_⟩
  · intro d; simp [getAssignedDoctor, refTruthy]
  · intro s hs
    have htr : refTruthy (.strId s) = true := by simp [refTruthy, hs]
    constructor
    · intro pre d post hdoc hd hpre
      have hfind : (doctors.find? (fun d => d._id == some s || d.id == some s)) = some d := by
        rw [hdoc]
        apply find?_first
        · intro x hx
          have := hpre x hx
          simp [this.1, this.2]
        · rcases hd with h | h <;> simp [h]
      simp [getAssignedDoctor, htr, hfind]
    · intro hnone
      have hfind : (doctors.find? (fun d => d._id == some s || d.id == some s)) = none := by
        apply List.find?_eq_none.mpr
        intro x hx
        have := hnone x hx
        simp [this.1, this.2]
      simp [getAssignedDoctor, htr, hfind]
  · simp [getAssignedDoctor, refTruthy]

/-- Witness for C7 at the specification's own examples: reference "d1"
against a one-doctor collection resolves to that doctor, reference "dX"
resolves to the placeholder, and an absent reference resolves to no
result. -/
theorem getAssignedDoctor_spec_witness :
    getAssignedDoctor (.strId "d1")
      [{ _id := some "d1", id := none, name := "Dr. A", specialization := none }] =
      some { _id := some "d1", id := none, name := "Dr. A", specialization := none }
  ∧ getAssignedDoctor (.strId "dX")
      [{ _id := some "d1", id := none, name := "Dr. A", specialization := none }] =
      some placeholderDoctor
  ∧ getAssignedDoctor .absent
      [{ _id := some "d1", id := none, name := "Dr. A", specialization := none }] = none :=
  ⟨((getAssignedDoctor_spec _).2.1 "d1" (by decide)).1 []
      { _id := some "d1", id := none, name := "Dr. A", specialization := none } [] rfl
      (Or.inl rfl) (by simp),
   ((getAssignedDoctor_spec _).2.1 "dX" (by decide)).2 (by decide),
   (getAssignedDoctor_spec _).2.2⟩

/-- C8.  The derived status filter is "All" when the external status
parameter is absent; the matching enumeration member when the parameter
matches one of the five fixed statuses case-insensitively; and "All"
when no member matches. -/
theorem deriveTab_spec :
    deriveTab none = "All"
  ∧ (∀ p s, s ∈ STATUSES → jsToLower s = jsToLower p → deriveTab (some p) = s)
  ∧ (∀ p, (∀ s ∈ STATUSES, jsToLower s ≠ jsToLower p) → deriveTab (some p) = "All") := by
  refine ⟨rfl, ?_, ?_⟩
  · intro p s hs hlow
    have hsd : s = "Pending" ∨ s = "Assigned" ∨ s = "In Progress" ∨ s = "Follow Up" ∨
        s = "Closed" := by simpa [STATUSES] using hs
    rcases hsd with h | h | h | h | h <;> subst h <;>
    · have hp : p ≠ "" := by
        intro h0
        rw [h0] at hlow
        exact absurd hlow (by decide)
      simp only [deriveTab, if_neg hp, ← hlow]
      decide
  · intro p hnone
    by_cases hp : p = ""
    · simp [deriveTab, hp]
    · have hfind : STATUSES.find? (fun s => jsToLower s == jsToLower p) = none := by
        apply List.find?_eq_none.mpr
        intro x hx
        simpa using hnone x hx
      simp [deriveTab, if_neg hp, hfind]

/-- Witness for C8: an absent parameter yields "All", the parameter
"in progress" matches the member "In Progress" case-insensitively, and
the parameter "bogus" falls back to "All". -/
theorem deriveTab_spec_witness :
    deriveTab none = "All"
  ∧ deriveTab (some "in progress") = "In Progress"
  ∧ deriveTab (some "bogus") = "All" :=
  ⟨deriveTab_spec.1,
   deriveTab_spec.2.1 "in progress" "In Progress" (by decide) (by decide),
   deriveTab_spec.2.2 "bogus" (by decide)⟩

/-- Only a plain object can carry a truthy identifier field: property
access on every other value yields `undefined`. -/
theorem hasTruthyId_isObj (v : JsValue) (h : hasTruthyId v = true) :
    isObjVal v = true := by
  cases v <;> simp_all [hasTruthyId, getProp, jsOr, truthy, isObjVal]

/-- C10.  The canonical-record extraction is total over all JavaScript
values: it always yields either a plain object or `null` (no error path
exists in the model, every case being covered by the guard, the probes or
the final fallback), `null` and `undefined` are stopped by the up-front
guard, and string, number and boolean inputs fall through every probe to
yield `null`. -/
theorem extractUpdatedCase_total :
    (∀ v, extractUpdatedCase v = JsValue.null ∨ isObjVal (extractUpdatedCase v) = true)
  ∧ extractUpdatedCase JsValue.null = JsValue.null
  ∧ extractUpdatedCase JsValue.undefined = JsValue.null
  ∧ (∀ s, extractUpdatedCase (JsValue.str s) = JsValue.null)
  ∧ (∀ n, extractUpdatedCase (JsValue.num n) = JsValue.null)
  ∧ (∀ b, extractUpdatedCase (JsValue.bool b) = JsValue.null) := by
  refine ⟨?_, rfl, rfl, ?_, ?_, ?_⟩
  · intro v
    by_cases h1 : truthy v
    case neg => left; simp [extractUpdatedCase, h1]
    by_cases h2 : hasTruthyId v
    · right
      have hv : extractUpdatedCase v = v := by simp [extractUpdatedCase, h1, h2]
      rw [hv]; exact hasTruthyId_isObj v h2
    · rcases hk : probeKeys.find? (fun k => probeOk v k) with _ | k
      · rcases hval : (jsValues v).find? (fun x => valOk x) with _ | x
        · left; simp [extractUpdatedCase, h1, h2, hk, hval]
        · right
          have hx : valOk x = true := List.find?_some hval
          have hobj : isObjVal x = true := by
            have : hasTruthyId x = true := by
              simp [valOk] at hx; tauto
            exact hasTruthyId_isObj x this
          have hv : extractUpdatedCase v = x := by
            simp [extractUpdatedCase, h1, h2, hk, hval]
          rw [hv]; exact hobj
      · right
        have hkk : probeOk v k = true := List.find?_some hk
        have hobj : isObjVal (getProp v k) = true := by
          have : hasTruthyId (getProp v k) = true := by
            simp [probeOk] at hkk; exact hkk.2
          exact hasTruthyId_isObj _ this
        have hv : extractUpdatedCase v = getProp v k := by
          simp [extractUpdatedCase, h1, h2, hk]
        rw [hv]; exact hobj
  · intro s
    by_cases hs : s = ""
    · simp [extractUpdatedCase, truthy, hs]
    · have hfindv : ((jsValues (JsValue.str s)).find? (fun x => valOk x)) = none := by
        apply List.find?_eq_none.mpr
        intro x hx
        simp only [jsValues, List.mem_map] at hx
        obtain ⟨c, _, rfl⟩ := hx
        simp [valOk, typeofObject]
      have hfindk : (probeKeys.find? (fun k => probeOk (JsValue.str s) k)) = none := by
        apply List.find?_eq_none.mpr
        intro k _
        simp [probeOk, getProp, truthy]
      simp [extractUpdatedCase, truthy, hs, hasTruthyId, getProp, jsOr, hfindk, hfindv]
  · intro n
    by_cases hn : n = 0
    · simp [extractUpdatedCase, truthy, hn]
    · have hfindk : (probeKeys.find? (fun k => probeOk (JsValue.num n) k)) = none := by
        apply List.find?_eq_none.mpr
        intro k _
        simp [probeOk, getProp, truthy]
      simp [extractUpdatedCase, truthy, hn, hasTruthyId, getProp, jsOr, jsValues, hfindk]
  · intro b
    cases b
    · simp [extractUpdatedCase, truthy]
    · have hfindk : (probeKeys.find? (fun k => probeOk (JsValue.bool true) k)) = none := by
        apply List.find?_eq_none.mpr
        intro k _
        simp [probeOk, getProp, truthy]
      simp [extractUpdatedCase, truthy, hasTruthyId, getProp, jsOr, jsValues, hfindk]

/-- C5.  The canonical-record extraction returns the response body itself
when the body carries a truthy identifier field; otherwise the value
under the first wrapper key (in the order case, data, result, payload)
whose value is truthy and carries a truthy identifier field; otherwise
the first among the body's own values that is truthy, object-typed and
carries a truthy identifier field; and when none of these applies it
yields `null`, in which case the status-update handler keeps the
optimistic local collection unchanged (surfacing only a console
warning). -/
theorem extractUpdatedCase_spec :
    (∀ data, truthy data = true → hasTruthyId data = true →
      extractUpdatedCase data = data)
  ∧ (∀ data ks1 k ks2, truthy data = true → hasTruthyId data = false →
      probeKeys = ks1 ++ k :: ks2 →
      (∀ k' ∈ ks1, probeOk data k' = false) →
      probeOk data k = true →
      extractUpdatedCase data = getProp data k)
  ∧ (∀ data vs1 v vs2, truthy data = true → hasTruthyId data = false →
      (∀ k ∈ probeKeys, probeOk data k = false) →
      jsValues data = vs1 ++ v :: vs2 →
      (∀ v' ∈ vs1, valOk v' = false) →
      valOk v = true →
      extractUpdatedCase data = v)
  ∧ (∀ data, (truthy data = false ∨
      (hasTruthyId data = false ∧ (∀ k ∈ probeKeys, probeOk data k = false) ∧
        (∀ v ∈ jsValues data, valOk v = false))) →
      extractUpdatedCase data = JsValue.null)
  ∧ (∀ data refetchResp caseId newStatus st, truthy caseId = true →
      extractUpdatedCase data = JsValue.null →
      (handleUpdateStatus (.ok data) refetchResp caseId newStatus st).1.cases =
        optimisticUpdate caseId newStatus st.cases
      ∧ Ev.warned ∈ (handleUpdateStatus (.ok data) refetchResp caseId newStatus st).2) := by
  refine ⟨?_, ?_, ?_, ?_, ?_⟩
  · intro data h1 h2
    simp [extractUpdatedCase, h1, h2]
  · intro data ks1 k ks2 h1 h2 hsplit hpre hk
    have hfind : probeKeys.find? (fun k => probeOk data k) = some k := by
      rw [hsplit]; exact find?_first _ ks1 k ks2 hpre hk
    simp [extractUpdatedCase, h1, h2, hfind]
  · intro data vs1 v vs2 h1 h2 hks hsplit hpre hv
    have hfindk : probeKeys.find? (fun k => probeOk data k) = none :=
      List.find?_eq_none.mpr (fun k hk => by simp [hks k hk])
    have hfindv : (jsValues data).find? (fun x => valOk x) = some v := by
      rw [hsplit]; exact find?_first _ vs1 v vs2 hpre hv
    simp [extractUpdatedCase, h1, h2, hfindk, hfindv]
  · intro data h
    rcases h with h1 | ⟨h2, hks, hvs⟩
    · simp [extractUpdatedCase, h1]
    · by_cases h1 : truthy data
      · have hfindk : probeKeys.find? (fun k => probeOk data k) = none :=
          List.find?_eq_none.mpr (fun k hk => by simp [hks k hk])
        have hfindv : (jsValues data).find? (fun x => valOk x) = none :=
          List.find?_eq_none.mpr (fun x hx => by simp [hvs x hx])
        simp [extractUpdatedCase, h1, h2, hfindk, hfindv]
      · simp [extractUpdatedCase, h1]
  · intro data refetchResp caseId newStatus st htr hnull
    have hcond : (truthy data && hasTruthyId data) = false := by
      by_cases h1 : truthy data
      · by_cases h2 : hasTruthyId data
        · exfalso
          have hd : extractUpdatedCase data = data := by
            simp [extractUpdatedCase, h1, h2]
          rw [hnull] at hd
          rw [← hd] at h1
          simp [truthy] at h1
        · simp [h2]
      · simp [h1]
    have hupd : jsCoalesce (extractUpdatedCase data) data = data := by
      rw [hnull]; rfl
    constructor
    · simp [handleUpdateStatus, htr, hupd, hcond]
    · simp [handleUpdateStatus, htr, hupd, hcond]

/-- Witness for C5 at the specification's examples: a body wrapped under
the key "case" extracts to the wrapped record, a direct body with an
identifier extracts to itself, a body with no identifier anywhere
extracts to `null`, and in that last case the handler's final collection
is exactly the optimistic rewrite. -/
theorem extractUpdatedCase_spec_witness :
    extractUpdatedCase
        (.obj [("case", .obj [("_id", .str "c1"), ("status", .str "Closed")])]) =
      .obj [("_id", .str "c1"), ("status", .str "Closed")]
  ∧ extractUpdatedCase (.obj [("_id", .str "c1"), ("status", .str "Closed")]) =
      .obj [("_id", .str "c1"), ("status", .str "Closed")]
  ∧ extractUpdatedCase (.obj [("unexpected", .str "shape")]) = JsValue.null
  ∧ (handleUpdateStatus (.ok (.obj [("unexpected", .str "shape")])) (.error ())
      (.str "k1") "Closed"
      { cases := [.obj [("_id", .str "k1"), ("status", .str "Pending")]],
        selectedCase := .null, updatingCaseId := .null }).1.cases =
      optimisticUpdate (.str "k1") "Closed"
        [.obj [("_id", .str "k1"), ("status", .str "Pending")]] :=
  ⟨(extractUpdatedCase_spec.2.1
      (.obj [("case", .obj [("_id", .str "c1"), ("status", .str "Closed")])])
      [] "case" ["data", "result", "payload"] (by decide) (by decide) rfl
      (by simp) (by decide)).trans rfl,
   extractUpdatedCase_spec.1 (.obj [("_id", .str "c1"), ("status", .str "Closed")])
      (by decide) (by decide),
   extractUpdatedCase_spec.2.2.2.1 (.obj [("unexpected", .str "shape")])
      (Or.inr ⟨by decide, by decide, by decide⟩),
   (extractUpdatedCase_spec.2.2.2.2 (.obj [("unexpected", .str "shape")]) (.error ())
      (.str "k1") "Closed"
      { cases := [.obj [("_id", .str "k1"), ("status", .str "Pending")]],
        selectedCase := .null, updatingCaseId := .null } (by decide) rfl).1⟩

/-- Looking up a key after writing a field: the written key reads back
the written value, every other key reads as before. -/
theorem lookup_setField (k : String) (v : JsValue) :
    ∀ (fs : List (String × JsValue)) (k' : String),
    (setField fs k v).lookup k' = if k' = k then some v else fs.lookup k' := by
  intro fs
  induction fs with
  | nil =>
    intro k'
    by_cases h : k' = k
    · simp [setField, List.lookup, h]
    · have hb : (k' == k) = false := by simp [h]
      simp [setField, List.lookup, hb, h]
  | cons a fs ih =>
    intro k'
    obtain ⟨ak, av⟩ := a
    by_cases hak : ak = k
    · subst hak
      have hb : (ak == ak) = true := by simp
      simp only [setField, hb, if_true]
      by_cases h : k' = ak
      · simp [List.lookup, h]
      · have hb' : (k' == ak) = false := by simp [h]
        simp [List.lookup, hb', h]
    · have hb : (ak == k) = false := by simp [hak]
      simp only [setField, hb, Bool.false_eq_true, if_false]
      by_cases h : k' = ak
      · subst h
        have hknk : ¬ k' = k := hak
        have hb' : (k' == k') = true := by simp
        simp [List.lookup, hb', hknk]
      · have hb' : (k' == ak) = false := by simp [h]
        simp [List.lookup, hb', ih k']

/-- Property read on an object is association-list lookup. -/
theorem getProp_obj (l : List (String × JsValue)) (k : String) :
    getProp (.obj l) k = (match l.lookup k with | some v => v | none => .undefined) := rfl

/-- Writing the status field of an object by spread leaves every other
property unchanged and makes the status read back the written value. -/
theorem mergeObj_status (fs : List (String × JsValue)) (newStatus : String) :
    getProp (mergeObj (.obj fs) (.obj [("status", .str newStatus)])) "status" =
      .str newStatus
  ∧ ∀ k, k ≠ "status" →
      getProp (mergeObj (.obj fs) (.obj [("status", .str newStatus)])) k =
        getProp (.obj fs) k := by
  constructor
  · show getProp (.obj (setField fs "status" (.str newStatus))) "status" = _
    rw [getProp_obj, lookup_setField, if_pos rfl]
  · intro k hk
    show getProp (.obj (setField fs "status" (.str newStatus))) k = _
    rw [getProp_obj, lookup_setField, if_neg hk, getProp_obj]

/-- C9.  The optimistic rewrite of the local case collection is a
pointwise map, so the collection's length and the order of its records
are preserved; the map is the identity on every record whose identifier
is not strictly equal to the given one; and on a matching record it makes
the status property read the new status while every other property reads
as before. -/
theorem optimisticUpdate_frame (cs : List JsValue) (caseId : JsValue)
    (newStatus : String) (hobj : ∀ c ∈ cs, isObjVal c = true) :
    (optimisticUpdate caseId newStatus cs).length = cs.length
  ∧ ∃ f, optimisticUpdate caseId newStatus cs = cs.map f
    ∧ ∀ c ∈ cs,
        (strictEq (getProp c "_id") caseId = false → f c = c)
      ∧ (strictEq (getProp c "_id") caseId = true →
          getProp (f c) "status" = JsValue.str newStatus
          ∧ ∀ k, k ≠ "status" → getProp (f c) k = getProp c k) := by
  refine ⟨by simp [optimisticUpdate], ?_⟩
  refine ⟨_, rfl, ?_⟩
  intro c hc
  constructor
  · intro hne
    simp [hne]
  · intro heq
    have hco : isObjVal c = true := hobj c hc
    cases c with
    | obj fs =>
      simp only [heq, if_true]
      exact mergeObj_status fs newStatus
    | undefined => simp [isObjVal] at hco
    | null => simp [isObjVal] at hco
    | bool b => simp [isObjVal] at hco
    | num n => simp [isObjVal] at hco
    | str s => simp [isObjVal] at hco
    | arr xs => simp [isObjVal] at hco

/-- Witness for C9 on a two-record collection where exactly the first
record matches the updated identifier. -/
theorem optimisticUpdate_frame_witness :
    (optimisticUpdate (.str "a") "Closed"
      [.obj [("_id", .str "a"), ("status", .str "Pending"), ("title", .str "t1")],
       .obj [("_id", .str "b"), ("status", .str "Pending")]]).length =
      ([.obj [("_id", .str "a"), ("status", .str "Pending"), ("title", .str "t1")],
        .obj [("_id", .str "b"), ("status", .str "Pending")]] : List JsValue).length
  ∧ ∃ f, optimisticUpdate (.str "a") "Closed"
      [.obj [("_id", .str "a"), ("status", .str "Pending"), ("title", .str "t1")],
       .obj [("_id", .str "b"), ("status", .str "Pending")]] =
      ([.obj [("_id", .str "a"), ("status", .str "Pending"), ("title", .str "t1")],
        .obj [("_id", .str "b"), ("status", .str "Pending")]] : List JsValue).map f
    ∧ ∀ c ∈ ([.obj [("_id", .str "a"), ("status", .str "Pending"), ("title", .str "t1")],
        .obj [("_id", .str "b"), ("status", .str "Pending")]] : List JsValue),
        (strictEq (getProp c "_id") (.str "a") = false → f c = c)
      ∧ (strictEq (getProp c "_id") (.str "a") = true →
          getProp (f c) "status" = JsValue.str "Closed"
          ∧ ∀ k, k ≠ "status" → getProp (f c) k = getProp c k) :=
  optimisticUpdate_frame
    [.obj [("_id", .str "a"), ("status", .str "Pending"), ("title", .str "t1")],
     .obj [("_id", .str "b"), ("status", .str "Pending")]]
    (.str "a") "Closed" (by decide)

/-- C3.  When the case identifier is falsy the status-update operation is
a no-op: the state is returned unchanged and the effect trace is empty,
so in particular no remote call is issued.  When the identifier is
truthy, the first three observable effects are, in order: marking the
identifier in flight, writing the optimistically rewritten case
collection (the rewrite that sets the matching record's status, whose
per-record effect is characterized separately), and only then issuing
the remote update call — so the local rewrite is applied and observable
strictly before the remote call. -/
theorem handleUpdateStatus_guard_and_order
    (putResp refetchResp : Except Unit JsValue) (caseId : JsValue)
    (newStatus : String) (st : DashState) :
    (truthy caseId = false →
      handleUpdateStatus putResp refetchResp caseId newStatus st = (st, []))
  ∧ (truthy caseId = true →
      ∃ rest, (handleUpdateStatus putResp refetchResp caseId newStatus st).2 =
        Ev.setUpdatingId caseId ::
        Ev.setCasesTo (optimisticUpdate caseId newStatus st.cases) ::
        Ev.remotePut caseId newStatus :: rest) := by
  constructor
  · intro h
    simp [handleUpdateStatus, h]
  · intro h
    cases putResp with
    | ok data =>
      by_cases hc : (truthy (jsCoalesce (extractUpdatedCase data) data)
          && hasTruthyId (jsCoalesce (extractUpdatedCase data) data)) = true
      · by_cases hsel : (truthy st.selectedCase &&
            (jsToString (getProp st.selectedCase "_id") ==
              jsToString (jsOr (getProp (jsCoalesce (extractUpdatedCase data) data) "_id")
                (getProp (jsCoalesce (extractUpdatedCase data) data) "id")))) = true
        · exact ⟨_, by simp [handleUpdateStatus, h, hc, hsel]; rfl⟩
        · exact ⟨_, by simp [handleUpdateStatus, h, hc, hsel]; rfl⟩
      · exact ⟨_, by simp [handleUpdateStatus, h, hc]; rfl⟩
    | error e =>
      cases refetchResp with
      | ok d => exact ⟨_, by simp [handleUpdateStatus, h]; rfl⟩
      | error e' => exact ⟨_, by simp [handleUpdateStatus, h]; rfl⟩

/-- A concrete one-record dashboard state used by the handler witnesses. -/
def demoState : DashState where
  cases := [.obj [("_id", .str "c1"), ("status", .str "Pending")]]
  selectedCase := .null
  updatingCaseId := .null

/-- Witness for C3: with an absent (null) identifier the handler returns
the state unchanged with an empty trace; with the identifier "c1" the
trace begins with the in-flight mark, the optimistic collection write and
the remote call, in that order. -/
theorem handleUpdateStatus_guard_and_order_witness :
    handleUpdateStatus (.error ()) (.error ()) JsValue.null "Closed" demoState =
      (demoState, [])
  ∧ ∃ rest, (handleUpdateStatus (.error ()) (.error ()) (.str "c1") "Closed" demoState).2 =
      Ev.setUpdatingId (.str "c1") ::
      Ev.setCasesTo (optimisticUpdate (.str "c1") "Closed" demoState.cases) ::
      Ev.remotePut (.str "c1") "Closed" :: rest :=
  ⟨(handleUpdateStatus_guard_and_order (.error ()) (.error ()) JsValue.null "Closed"
      demoState).1 (by decide),
   (handleUpdateStatus_guard_and_order (.error ()) (.error ()) (.str "c1") "Closed"
      demoState).2 (by decide)⟩

/-- C4.  For a truthy identifier: when the remote update call fails, the
handler issues a reload of the full case collection, and the final local
collection is the reloaded one (the optimistic change discarded; a
non-array reload body yields the empty collection); when that reload
itself also fails, the final collection is exactly the optimistic rewrite
(no further revert), and the operator alert is raised in either failure
case.  In every outcome — success with or without an extractable record,
update failure, reload failure — the in-flight marker is null in the
final state and clearing it is the last observable effect. -/
theorem handleUpdateStatus_failure_recovery
    (putResp refetchResp : Except Unit JsValue) (caseId : JsValue)
    (newStatus : String) (st : DashState) (htr : truthy caseId = true) :
    (∀ e, putResp = .error e →
      Ev.remoteGet ∈ (handleUpdateStatus putResp refetchResp caseId newStatus st).2
      ∧ (∀ d, refetchResp = .ok d →
          (handleUpdateStatus putResp refetchResp caseId newStatus st).1.cases =
            casesFromResponse d)
      ∧ (∀ e', refetchResp = .error e' →
          (handleUpdateStatus putResp refetchResp caseId newStatus st).1.cases =
            optimisticUpdate caseId newStatus st.cases)
      ∧ Ev.alerted ∈ (handleUpdateStatus putResp refetchResp caseId newStatus st).2)
  ∧ (handleUpdateStatus putResp refetchResp caseId newStatus st).1.updatingCaseId =
      JsValue.null
  ∧ (handleUpdateStatus putResp refetchResp caseId newStatus st).2.getLast? =
      some (Ev.setUpdatingId JsValue.null) := by
  refine ⟨?_, ?_, ?_⟩
  · intro e he
    subst he
    cases refetchResp with
    | ok d =>
      refine ⟨?_, ?_, ?_, ?_⟩
      · simp [handleUpdateStatus, htr]
      · intro d' hd'
        injection hd' with h
        subst h
        simp [handleUpdateStatus, htr]
      · intro e' he'
        exact absurd he' (by simp)
      · simp [handleUpdateStatus, htr]
    | error e' =>
      refine ⟨?_, ?_, ?_, ?_⟩
      · simp [handleUpdateStatus, htr]
      · intro d' hd'
        exact absurd hd' (by simp)
      · intro e'' _
        simp [handleUpdateStatus, htr]
      · simp [handleUpdateStatus, htr]
  · cases putResp with
    | ok data =>
      by_cases hc : (truthy (jsCoalesce (extractUpdatedCase data) data)
          && hasTruthyId (jsCoalesce (extractUpdatedCase data) data)) = true
      · by_cases hsel : (truthy st.selectedCase &&
            (jsToString (getProp st.selectedCase "_id") ==
              jsToString (jsOr (getProp (jsCoalesce (extractUpdatedCase data) data) "_id")
                (getProp (jsCoalesce (extractUpdatedCase data) data) "id")))) = true
        · simp [handleUpdateStatus, htr, hc, hsel]
        · simp [handleUpdateStatus, htr, hc, hsel]
      · simp [handleUpdateStatus, htr, hc]
    | error e =>
      cases refetchResp with
      | ok d => simp [handleUpdateStatus, htr]
      | error e' => simp [handleUpdateStatus, htr]
  · cases putResp with
    | ok data =>
      by_cases hc : (truthy (jsCoalesce (extractUpdatedCase data) data)
          && hasTruthyId (jsCoalesce (extractUpdatedCase data) data)) = true
      · by_cases hsel : (truthy st.selectedCase &&
            (jsToString (getProp st.selectedCase "_id") ==
              jsToString (jsOr (getProp (jsCoalesce (extractUpdatedCase data) data) "_id")
                (getProp (jsCoalesce (extractUpdatedCase data) data) "id")))) = true
        · simp [handleUpdateStatus, htr, hc, hsel]
        · simp [handleUpdateStatus, htr, hc, hsel]
      · simp [handleUpdateStatus, htr, hc]
    | error e =>
      cases refetchResp with
      | ok d => simp [handleUpdateStatus, htr]
      | error e' => simp [handleUpdateStatus, htr]

/-- Witness for C4: with identifier "c1", a failed update followed by a
failed reload leaves the optimistic collection and clears the marker;
a failed update followed by a successful reload installs the reloaded
collection; and the trace ends with the marker clearing in both runs. -/
theorem handleUpdateStatus_failure_recovery_witness :
    (handleUpdateStatus (.error ()) (.error ()) (.str "c1") "Closed" demoState).1.cases =
      optimisticUpdate (.str "c1") "Closed" demoState.cases
  ∧ (handleUpdateStatus (.error ())
      (.ok (.arr [.obj [("_id", .str "c9"), ("status", .str "Closed")]]))
      (.str "c1") "Closed" demoState).1.cases =
      casesFromResponse (.arr [.obj [("_id", .str "c9"), ("status", .str "Closed")]])
  ∧ (handleUpdateStatus (.error ()) (.error ()) (.str "c1") "Closed"
      demoState).1.updatingCaseId = JsValue.null
  ∧ (handleUpdateStatus (.error ()) (.error ()) (.str "c1") "Closed"
      demoState).2.getLast? = some (Ev.setUpdatingId JsValue.null) :=
  ⟨(((handleUpdateStatus_failure_recovery (.error ()) (.error ()) (.str "c1") "Closed"
        demoState (by decide)).1 () rfl).2.2.1 () rfl),
   (((handleUpdateStatus_failure_recovery (.error ())
        (.ok (.arr [.obj [("_id", .str "c9"), ("status", .str "Closed")]]))
        (.str "c1") "Closed" demoState (by decide)).1 () rfl).2.1
      (.arr [.obj [("_id", .str "c9"), ("status", .str "Closed")]]) rfl),
   (handleUpdateStatus_failure_recovery (.error ()) (.error ()) (.str "c1") "Closed"
      demoState (by decide)).2.1,
   (handleUpdateStatus_failure_recovery (.error ()) (.error ()) (.str "c1") "Closed"
      demoState (by decide)).2.2⟩

/-- Insertion permutes: inserting an element yields a permutation of
consing it. -/
theorem insertByCreatedDesc_perm (x : CaseRec) :
    ∀ l, (insertByCreatedDesc x l).Perm (x :: l) := by
  intro l
  induction l with
  | nil => exact List.Perm.refl _
  | cons y ys ih =>
    simp only [insertByCreatedDesc]
    split_ifs with h
    · exact List.Perm.refl _
    · exact (List.Perm.cons y ih).trans (List.Perm.swap x y ys)

/-- The descending sort permutes the collection. -/
theorem sortByCreatedDesc_perm (cs : List CaseRec) :
    (sortByCreatedDesc cs).Perm cs := by
  induction cs with
  | nil => exact List.Perm.refl _
  | cons c cs ih =>
    exact (insertByCreatedDesc_perm c (sortByCreatedDesc cs)).trans (List.Perm.cons c ih)

/-- Insertion preserves the descending-by-creation pairwise order. -/
theorem insertByCreatedDesc_pairwise (x : CaseRec) :
    ∀ l, l.Pairwise (fun a b => b.createdAt ≤ a.createdAt) →
    (insertByCreatedDesc x l).Pairwise (fun a b => b.createdAt ≤ a.createdAt) := by
  intro l
  induction l with
  | nil => intro _; simp [insertByCreatedDesc]
  | cons y ys ih =>
    intro h
    rw [List.pairwise_cons] at h
    obtain ⟨hy, hys⟩ := h
    simp only [insertByCreatedDesc]
    split_ifs with hle
    · rw [List.pairwise_cons]
      refine ⟨?_, ?_⟩
      · intro z hz
        rcases List.mem_cons.mp hz with rfl | hz'
        · exact hle
        · exact le_trans (hy z hz') hle
      · rw [List.pairwise_cons]
        exact ⟨hy, hys⟩
    · rw [List.pairwise_cons]
      refine ⟨?_, ih hys⟩
      intro z hz
      rcases List.mem_cons.mp ((insertByCreatedDesc_perm x ys).mem_iff.mp hz)
        with rfl | hz'
      · exact le_of_lt (lt_of_not_le hle)
      · exact hy z hz'

/-- The descending sort is pairwise descending by creation timestamp. -/
theorem sortByCreatedDesc_pairwise (cs : List CaseRec) :
    (sortByCreatedDesc cs).Pairwise (fun a b => b.createdAt ≤ a.createdAt) := by
  induction cs with
  | nil => simp [sortByCreatedDesc]
  | cons c cs ih => exact insertByCreatedDesc_pairwise c _ ih

/-- Insertion is stable with respect to a creation timestamp: the
inserted element (which comes from earlier in the input) lands before
every already-placed element with the same timestamp. -/
theorem insertByCreatedDesc_filter (x : CaseRec) (t : Nat) :
    ∀ l, (insertByCreatedDesc x l).filter (fun c => c.createdAt == t) =
      if x.createdAt == t then x :: l.filter (fun c => c.createdAt == t)
      else l.filter (fun c => c.createdAt == t) := by
  intro l
  induction l with
  | nil =>
    by_cases px : (x.createdAt == t) = true <;>
      simp [insertByCreatedDesc, List.filter, px]
  | cons y ys ih =>
    by_cases hle : y.createdAt ≤ x.createdAt
    · rw [show insertByCreatedDesc x (y :: ys) = x :: y :: ys by
        simp [insertByCreatedDesc, hle]]
      by_cases px : (x.createdAt == t) = true
      · simp [List.filter_cons, px]
      · simp [List.filter_cons, px]
    · rw [show insertByCreatedDesc x (y :: ys) = y :: insertByCreatedDesc x ys by
        simp [insertByCreatedDesc, hle]]
      by_cases px : (x.createdAt == t) = true
      · have hx : x.createdAt = t := by simpa using px
        have hyt : y.createdAt ≠ t := by omega
        have py : (y.createdAt == t) = false := beq_eq_false_iff_ne.mpr hyt
        simp [List.filter_cons, px, py, ih]
      · simp [List.filter_cons, ih, px]

/-- The descending sort is stable: the records carrying any fixed
creation timestamp appear in the sorted collection exactly in their
input order. -/
theorem sortByCreatedDesc_filter (cs : List CaseRec) (t : Nat) :
    (sortByCreatedDesc cs).filter (fun c => c.createdAt == t) =
      cs.filter (fun c => c.createdAt == t) := by
  induction cs with
  | nil => rfl
  | cons c cs ih =>
    show (insertByCreatedDesc c (sortByCreatedDesc cs)).filter _ = _
    rw [insertByCreatedDesc_filter c t (sortByCreatedDesc cs), ih]
    by_cases pc : (c.createdAt == t) = true <;> simp [List.filter_cons, pc]

/-- C6.  The recent-cases derivation keeps exactly six records when the
collection has seven or more (all records otherwise), in descending
creation order; together with the records it drops it is a permutation
of the input; every dropped record was created no later than every kept
one (so the kept records are the most recently created); and for each
fixed creation timestamp the kept records appear in their original input
order (stable ties), the kept group being an initial segment of the
input's records with that timestamp. -/
theorem recentCases_spec (cs : List CaseRec) :
    (recentCases cs).length = min 6 cs.length
  ∧ (recentCases cs).Pairwise (fun a b => b.createdAt ≤ a.createdAt)
  ∧ (recentCases cs ++ (sortByCreatedDesc cs).drop 6).Perm cs
  ∧ (∀ a ∈ recentCases cs, ∀ b ∈ (sortByCreatedDesc cs).drop 6,
      b.createdAt ≤ a.createdAt)
  ∧ (∀ t, ∃ rest, cs.filter (fun c => c.createdAt == t) =
      (recentCases cs).filter (fun c => c.createdAt == t) ++ rest) := by
  have hperm := sortByCreatedDesc_perm cs
  have hpw := sortByCreatedDesc_pairwise cs
  have hsplit : recentCases cs ++ (sortByCreatedDesc cs).drop 6 = sortByCreatedDesc cs :=
    List.take_append_drop 6 (sortByCreatedDesc cs)
  refine ⟨?_, ?_, ?_, ?_, ?_⟩
  · show ((sortByCreatedDesc cs).take 6).length = _
    rw [List.length_take, hperm.length_eq]
  · exact hpw.sublist (List.take_sublist 6 (sortByCreatedDesc cs))
  · rw [hsplit]; exact hperm
  · rw [← hsplit] at hpw
    exact (List.pairwise_append.mp hpw).2.2
  · intro t
    have h : cs.filter (fun c => c.createdAt == t) =
        (recentCases cs).filter (fun c => c.createdAt == t) ++
        ((sortByCreatedDesc cs).drop 6).filter (fun c => c.createdAt == t) := by
      conv_lhs => rw [← sortByCreatedDesc_filter cs t, ← hsplit]
      rw [List.filter_append]
    exact ⟨_, h⟩

/-- The seven-record collection used to witness C6 (timestamps 1 to 7,
with records "t4a" and "t4b" tying at timestamp 4 in that input order,
and "t0" the oldest). -/
def demoCases : List CaseRec :=
  [{ _id := some "t4a", status := none, createdAt := 4 },
   { _id := some "t7", status := none, createdAt := 7 },
   { _id := some "t4b", status := none, createdAt := 4 },
   { _id := some "t5", status := none, createdAt := 5 },
   { _id := some "t6", status := none, createdAt := 6 },
   { _id := some "t1", status := none, createdAt := 1 },
   { _id := some "t0", status := none, createdAt := 0 }]

/-- Witness for C6 on the seven-record collection: six records are kept,
the dropped record ("t0", timestamp 0) was created no later than the kept
record with timestamp 7, and the timestamp-4 ties keep their input
order as an initial segment. -/
theorem recentCases_spec_witness :
    (recentCases demoCases).length = min 6 demoCases.length
  ∧ ({ _id := some "t0", status := none, createdAt := 0 } : CaseRec).createdAt ≤
      ({ _id := some "t7", status := none, createdAt := 7 } : CaseRec).createdAt
  ∧ ∃ rest, demoCases.filter (fun c => c.createdAt == 4) =
      (recentCases demoCases).filter (fun c => c.createdAt == 4) ++ rest :=
  ⟨(recentCases_spec demoCases).1,
   (recentCases_spec demoCases).2.2.2.1
     { _id := some "t7", status := none, createdAt := 7 } (by decide)
     { _id := some "t0", status := none, createdAt := 0 } (by decide),
   (recentCases_spec demoCases).2.2.2.2 4⟩
